import Mathlib

/-!
Shallow embedding of the persistence and integrity layer of the
context-landing service (`src/app.py`): the slug generator, the JSON
record stores with field backfilling, account signup/login, linking of
external advertising accounts, and the handling of the third-party
verifier response.

Conventions of the embedding:
* Python strings are Lean `String`s; positional string operations
  (slicing, `len`) act on code points exactly as in Python.
* Python's `str.lower` is modelled on the alphabets the application
  handles (ASCII and Cyrillic, including Ё); all other characters are
  kept unchanged.
* JSON values are the inductive `JVal`; a parsed JSON object is an
  association list `Rec` with first-match lookup, which coincides with
  a Python dict whenever keys are unique (as they are for parsed JSON).
* File contents are modelled at the JSON-value level: `json.dump`
  followed by `json.load` reproduces the dumped value for the data the
  service stores, so serialization is the identity on `JVal`.
* Fallible code (uncaught exceptions in Python) is modelled with
  `Option`: `none` is a raised exception.
-/

namespace ContextLanding

/-! ### Characters: Python whitespace and lower-casing -/

/-- Whitespace characters of Python 3: the set matched by `str.strip()`
with no arguments and by the regex class `\s` on `str` patterns. -/
def spaceChars : List Char :=
  ['\t', '\n', Char.ofNat 0x0b, Char.ofNat 0x0c, '\r',
   Char.ofNat 0x1c, Char.ofNat 0x1d, Char.ofNat 0x1e, Char.ofNat 0x1f, ' ',
   Char.ofNat 0x85, Char.ofNat 0xa0, Char.ofNat 0x1680,
   Char.ofNat 0x2000, Char.ofNat 0x2001, Char.ofNat 0x2002, Char.ofNat 0x2003,
   Char.ofNat 0x2004, Char.ofNat 0x2005, Char.ofNat 0x2006, Char.ofNat 0x2007,
   Char.ofNat 0x2008, Char.ofNat 0x2009, Char.ofNat 0x200a,
   Char.ofNat 0x2028, Char.ofNat 0x2029, Char.ofNat 0x202f, Char.ofNat 0x205f,
   Char.ofNat 0x3000]

/-- Python `str.isspace` / regex `\s` for a single character. -/
def pyIsSpace (c : Char) : Bool := spaceChars.contains c

/-- Upper/lower pairs of `str.lower` restricted to the alphabets the
application handles: ASCII `A`-`Z` and Cyrillic `А`-`Я` plus `Ё`. -/
def lowerPairs : List (Char × Char) :=
  [('A', 'a'), ('B', 'b'), ('C', 'c'), ('D', 'd'), ('E', 'e'), ('F', 'f'),
   ('G', 'g'), ('H', 'h'), ('I', 'i'), ('J', 'j'), ('K', 'k'), ('L', 'l'),
   ('M', 'm'), ('N', 'n'), ('O', 'o'), ('P', 'p'), ('Q', 'q'), ('R', 'r'),
   ('S', 's'), ('T', 't'), ('U', 'u'), ('V', 'v'), ('W', 'w'), ('X', 'x'),
   ('Y', 'y'), ('Z', 'z'),
   ('А', 'а'), ('Б', 'б'), ('В', 'в'), ('Г', 'г'), ('Д', 'д'), ('Е', 'е'),
   ('Ж', 'ж'), ('З', 'з'), ('И', 'и'), ('Й', 'й'), ('К', 'к'), ('Л', 'л'),
   ('М', 'м'), ('Н', 'н'), ('О', 'о'), ('П', 'п'), ('Р', 'р'), ('С', 'с'),
   ('Т', 'т'), ('У', 'у'), ('Ф', 'ф'), ('Х', 'х'), ('Ц', 'ц'), ('Ч', 'ч'),
   ('Ш', 'ш'), ('Щ', 'щ'), ('Ъ', 'ъ'), ('Ы', 'ы'), ('Ь', 'ь'), ('Э', 'э'),
   ('Ю', 'ю'), ('Я', 'я'), ('Ё', 'ё')]

/-- Python `str.lower` on a single character (identity outside the
alphabets listed in `lowerPairs`). -/
def pyLowerChar (c : Char) : Char :=
  match lowerPairs.find? (fun p => p.1 == c) with
  | some p => p.2
  | none => c

/-- Python `str.strip()` (no arguments) on a character list: drop
whitespace from both ends. -/
def pyStripL (l : List Char) : List Char :=
  ((l.dropWhile pyIsSpace).reverse.dropWhile pyIsSpace).reverse

/-- Python `str.lower` on a character list. -/
def pyLowerL (l : List Char) : List Char := l.map pyLowerChar

/-- Python `s.strip()` on strings. -/
def pyStripS (s : String) : String := String.mk (pyStripL s.data)

/-- Email normalization used throughout `app.py`:
`email.strip().lower()`. -/
def pyNorm (s : String) : String := String.mk (pyLowerL (pyStripL s.data))

/-- Python `s[:n]` for `n ≥ 0`: the first `n` code points. -/
def pyTake (s : String) (n : Nat) : String := String.mk (s.data.take n)

/-! ### Slug generator (`slugify`, `make_unique_slug`) -/

/-- Characters kept by the first step of `slugify`: the regex
`re.sub(r"[^a-zA-Zа-яА-Я0-9\s-]", "", text)` keeps ASCII letters, the
Cyrillic ranges `а`-`я` (U+0430..U+044F) and `А`-`Я` (U+0410..U+042F),
digits, whitespace and the hyphen.  Note that `ё` (U+0451) and `Ё`
(U+0401) fall outside both Cyrillic ranges and are therefore removed. -/
def isSlugChar (c : Char) : Bool :=
  (0x61 ≤ c.toNat && c.toNat ≤ 0x7a) ||
  (0x41 ≤ c.toNat && c.toNat ≤ 0x5a) ||
  (0x430 ≤ c.toNat && c.toNat ≤ 0x44f) ||
  (0x410 ≤ c.toNat && c.toNat ≤ 0x42f) ||
  (0x30 ≤ c.toNat && c.toNat ≤ 0x39) ||
  pyIsSpace c || c == '-'

/-- Substitution of every maximal run of `isRun`-characters by the
single character `rep` (the effect of `re.sub(r"X+", rep, _)`); the
Boolean argument records whether the previous character was part of a
run. -/
def squashRun (isRun : Char → Bool) (rep : Char) : Bool → List Char → List Char
  | _, [] => []
  | inRun, c :: rest =>
    if isRun c then
      if inRun then squashRun isRun rep true rest
      else rep :: squashRun isRun rep true rest
    else c :: squashRun isRun rep false rest

/-- Replacement of `re.sub(r"\s+", "-", _)`: every maximal whitespace
run becomes a single hyphen. -/
def hyphenateSpaces (l : List Char) : List Char :=
  squashRun pyIsSpace '-' false l

/-- Replacement of `re.sub(r"-+", "-", _)`: every maximal hyphen run
becomes a single hyphen. -/
def collapseHyphens (l : List Char) : List Char :=
  squashRun (fun d => d == '-') '-' false l

/-- Embedding of `slugify` (app.py lines 37-42): filter the allowed
characters, strip, lower-case, replace `ё` by `е` (dead after the
filter, kept for fidelity), turn whitespace runs into hyphens, collapse
hyphen runs, and fall back to `"case"` when empty. -/
def slugify (text : String) : String :=
  let cleaned := pyLowerL (pyStripL (text.data.filter isSlugChar))
  let cleaned := cleaned.map (fun c => if c == 'ё' then 'е' else c)
  let slug := collapseHyphens (hyphenateSpaces cleaned)
  if slug.isEmpty then "case" else String.mk slug

/-- Candidate loop of `make_unique_slug`: starting from `candidate`
(and next numeric suffix `counter`), return the first candidate not in
`used`; `fuel` bounds the number of iterations (the caller passes
enough fuel for the loop to terminate as in the source, see
`slugSearch_spec`). -/
def slugSearch (used : List String) (base : String) :
    Nat → String → Nat → String
  | 0, candidate, _ => candidate
  | fuel + 1, candidate, counter =>
    if candidate ∈ used then
      slugSearch used base fuel (base ++ "-" ++ toString counter) (counter + 1)
    else candidate

/-- The `used_slugs` set of `make_unique_slug`: all slugs of the
collection, minus `old_slug` when that argument is truthy (the Python
guard `if old_slug:` skips the `discard` for `None` and `""`). -/
def usedSlugs (slugs : List String) (old : Option String) : List String :=
  match old with
  | some s => if s = "" then slugs else slugs.filter (fun x => x ≠ s)
  | none => slugs

/-- Embedding of `make_unique_slug` (app.py lines 139-150).  `slugs`
is the list of `case["slug"]` values of the currently loaded Case
collection; `old` is the keyword argument `old_slug` (`none` when not
passed).  The fuel `used.length + 1` is enough for the `while` loop to
finish exactly as in the source (`slugSearch_spec` below shows the
result is the first free candidate). -/
def make_unique_slug (slugs : List String) (title : String)
    (old : Option String) : String :=
  let base := slugify title
  let used := usedSlugs slugs old
  slugSearch used base (used.length + 1) base 2

/-- Decimal digit list of a natural number (most significant first);
reference implementation used to reason about `Nat.repr`. -/
def decRepr (n : Nat) : List Char :=
  if n < 10 then [Nat.digitChar n]
  else decRepr (n / 10) ++ [Nat.digitChar (n % 10)]
decreasing_by exact Nat.div_lt_self (by omega) (by omega)

/-- Embedding of `parse_tags` (app.py lines 153-154). -/
def parse_tags (tags : String) : List String :=
  ((tags.splitOn ",").map pyStripS).filter (fun part => part ≠ "")

/-- Embedding of `parse_project_stages` (app.py lines 157-158). -/
def parse_project_stages (values : List String) : List String :=
  (values.filter (fun v => v ≠ "" && pyStripS v ≠ "")).map pyStripS

/-! ### JSON values and records -/

/-- JSON values as produced by `json.load` (`None`, booleans, integers,
strings, arrays, objects).  The service stores only strings and string
arrays inside records, but loaded files may hold anything. -/
inductive JVal where
  | null : JVal
  | bool : Bool → JVal
  | num : Int → JVal
  | str : String → JVal
  | arr : List JVal → JVal
  | obj : List (String × JVal) → JVal

/-- A parsed JSON object / Python dict: an association list with
first-match lookup (keys of parsed JSON are unique, so this coincides
with dict semantics). -/
abbrev Rec := List (String × JVal)

/-- Dict lookup `r[k]` as an `Option` (`none` when the key is absent,
i.e. Python `k in r` is false). -/
def rget (r : Rec) (k : String) : Option JVal :=
  (r.find? (fun p => p.1 == k)).map (fun p => p.2)

/-- Python `r.get(k, d)`. -/
def dgetD (r : Rec) (k : String) (d : JVal) : JVal :=
  match rget r k with
  | some v => v
  | none => d

/-- Python `r.setdefault(k, v)`: insert `k ↦ v` only when `k` is
absent (new keys go to the end, preserving insertion order). -/
def setdefault (r : Rec) (k : String) (v : JVal) : Rec :=
  if (rget r k).isSome then r else r ++ [(k, v)]

/-- Python `r[k] = v` (also one step of `dict.update`): replace the
value of an existing key in place, or append a new key. -/
def rset : Rec → String → JVal → Rec
  | [], k, v => [(k, v)]
  | (k', v') :: rest, k, v =>
    if k' == k then (k, v) :: rest else (k', v') :: rset rest k v

/-- Python `case.update({...})`: assign every pair in order. -/
def caseUpdate (c : Rec) (ps : List (String × JVal)) : Rec :=
  ps.foldl (fun r p => rset r p.1 p.2) c

/-- Python truthiness of a JSON value (`bool(v)`). -/
def pyTruthy : JVal → Bool
  | .null => false
  | .bool b => b
  | .num n => n != 0
  | .str s => s != ""
  | .arr l => !l.isEmpty
  | .obj fs => !fs.isEmpty

/-- Python `a or b` on JSON values. -/
def pyOr (a b : JVal) : JVal := if pyTruthy a then a else b

/-! ### Case store: load/save with backfill -/

/-- Field-default backfill applied by `load_cases` (app.py lines
51-73): one `setdefault` per optional field, in source order.  The
defaults of `metric_1_after` / `metric_2_after` are the values of the
legacy fields `metric_1` / `metric_2` when present (`case.get(...)` is
evaluated before the corresponding `setdefault`, as in Python). -/
def backfillCase (c : Rec) : Rec :=
  let c := setdefault c "custom_content" (.str "")
  let c := setdefault c "cover_image" (.str "")
  let c := setdefault c "metric_1_label" (.str "")
  let c := setdefault c "metric_2_label" (.str "")
  let c := setdefault c "metric_1_before" (.str "")
  let c := setdefault c "metric_1_after" (dgetD c "metric_1" (.str ""))
  let c := setdefault c "metric_1_dynamic" (.str "")
  let c := setdefault c "metric_2_before" (.str "")
  let c := setdefault c "metric_2_after" (dgetD c "metric_2" (.str ""))
  let c := setdefault c "metric_2_dynamic" (.str "")
  let c := setdefault c "metric_1_trend" (.str "up")
  let c := setdefault c "metric_2_trend" (.str "up")
  let c := setdefault c "metric_1_color" (.str "green")
  let c := setdefault c "metric_2_color" (.str "green")
  let c := setdefault c "project_stages" (.arr [])
  let c := setdefault c "niche" (.str "")
  let c := setdefault c "sources" (.arr [])
  let c := setdefault c "icon" (.str "⚖️")
  let c := setdefault c "leads" (.str "")
  let c := setdefault c "budget" (.str "")
  let c := setdefault c "cpl" (.str "")
  let c := setdefault c "cr" (.str "")
  c

/-- Keys to which `load_cases` may apply a default (in source order). -/
def caseDefaultKeys : List String :=
  ["custom_content", "cover_image", "metric_1_label", "metric_2_label",
   "metric_1_before", "metric_1_after", "metric_1_dynamic",
   "metric_2_before", "metric_2_after", "metric_2_dynamic",
   "metric_1_trend", "metric_2_trend", "metric_1_color", "metric_2_color",
   "project_stages", "niche", "sources", "icon", "leads", "budget",
   "cpl", "cr"]

/-- Keys backfilled with a fixed constant default, paired with that
default (all of `caseDefaultKeys` except the two legacy-driven
`metric_*_after` fields). -/
def caseConstDefaults : List (String × JVal) :=
  [("custom_content", .str ""), ("cover_image", .str ""),
   ("metric_1_label", .str ""), ("metric_2_label", .str ""),
   ("metric_1_before", .str ""), ("metric_1_dynamic", .str ""),
   ("metric_2_before", .str ""), ("metric_2_dynamic", .str ""),
   ("metric_1_trend", .str "up"), ("metric_2_trend", .str "up"),
   ("metric_1_color", .str "green"), ("metric_2_color", .str "green"),
   ("project_stages", .arr []), ("niche", .str ""),
   ("sources", .arr []), ("icon", .str "⚖️"),
   ("leads", .str ""), ("budget", .str ""),
   ("cpl", .str ""), ("cr", .str "")]

/-- Serialization performed by `save_cases`: `json.dump` of the list of
records, modelled at the JSON-value level. -/
def encodeCases (rs : List Rec) : JVal := .arr (rs.map .obj)

/-- Element-wise check that every stored item is an object
(dict); any other shape makes the `for`/`setdefault` code raise. -/
def decodeItems : List JVal → Option (List Rec)
  | [] => some []
  | .obj fields :: rest => (decodeItems rest).map (fun rs => fields :: rs)
  | _ :: _ => none

/-- Structural check performed by `json.load` + the iteration in
`load_cases`: the file must hold an array of objects (`none` models
the exception raised otherwise, the spec's `CorruptStoreError`). -/
def decodeCases (v : JVal) : Option (List Rec) :=
  match v with
  | .arr items => decodeItems items
  | _ => none

/-- Embedding of `load_cases` (app.py lines 45-74) over the content of
`data/cases.json`: `none` content means the file does not exist (empty
collection); otherwise decode and backfill every record. -/
def load_cases (content : Option JVal) : Option (List Rec) :=
  match content with
  | none => some []
  | some v => (decodeCases v).map (fun rs => rs.map backfillCase)

/-! ### File-system model and the save operations -/

/-- Paths, as segment lists relative to the working directory. -/
def DATA_FILE : List String := ["data", "cases.json"]

def USERS_FILE : List String := ["data", "users.json"]

def SITE_CONTENT_FILE : List String := ["data", "site_content.json"]

/-- Minimal file-system state: the set of existing directories and the
files with their (JSON-level) contents.  The working directory `[]`
always exists. -/
structure FileSys where
  dirs : List (List String)
  files : List (List String × JVal)

/-- Opening a path for writing (`path.open("w")`): succeeds only when
the parent directory exists, replacing any previous content;
`none` models the `FileNotFoundError` raised otherwise. -/
def writeFile (fs : FileSys) (p : List String) (v : JVal) :
    Option FileSys :=
  if p.dropLast ∈ fs.dirs then
    some ⟨fs.dirs, (p, v) :: fs.files.filter (fun q => q.1 ≠ p)⟩
  else none

/-- Reading a file's content, `none` when absent. -/
def readFile (fs : FileSys) (p : List String) : Option JVal :=
  (fs.files.find? (fun q => q.1 == p)).map (fun q => q.2)

/-- `Path.mkdir(parents=True, exist_ok=True)`: create the directory
and all its ancestors. -/
def mkdirParents (fs : FileSys) (d : List String) : FileSys :=
  ⟨fs.dirs ++ d.inits, fs.files⟩

/-- Embedding of `save_cases` (app.py lines 77-79): opens
`data/cases.json` for writing directly — no directory creation. -/
def save_cases (fs : FileSys) (cases : List Rec) : Option FileSys :=
  writeFile fs DATA_FILE (encodeCases cases)

/-! ### Users: signup, login, account linking -/

/-- A linked external advertising account, as appended by
`connect_direct`. -/
structure DirectAccount where
  direct_login : String
  display_name : String
  access_token : String
deriving DecidableEq

/-- A user record, as created by `signup` (after the
`direct_accounts` backfill of `load_users`). -/
structure User where
  email : String
  password_hash : String
  direct_accounts : List DirectAccount
deriving DecidableEq

/-- JSON encoding of a linked account (the dict literal of
`connect_direct`). -/
def encodeAccount (a : DirectAccount) : Rec :=
  [("direct_login", .str a.direct_login),
   ("display_name", .str a.display_name),
   ("access_token", .str a.access_token)]

/-- JSON encoding of a user record (the dict literal of `signup`). -/
def encodeUser (u : User) : Rec :=
  [("email", .str u.email),
   ("password_hash", .str u.password_hash),
   ("direct_accounts", .arr (u.direct_accounts.map (fun a => .obj (encodeAccount a))))]

/-- Embedding of `save_users` (app.py lines 93-96): creates the parent
directory first, then writes the whole collection. -/
def save_users (fs : FileSys) (users : List User) : Option FileSys :=
  writeFile (mkdirParents fs USERS_FILE.dropLast) USERS_FILE
    (.arr (users.map (fun u => .obj (encodeUser u))))

/-- Embedding of `save_site_content` (app.py lines 118-121): creates
the parent directory first, then writes the singleton record. -/
def save_site_content (fs : FileSys) (content : Rec) : Option FileSys :=
  writeFile (mkdirParents fs SITE_CONTENT_FILE.dropLast) SITE_CONTENT_FILE
    (.obj content)

/-- Embedding of `find_user` (app.py lines 124-129): normalize the
argument and return the first user with that exact stored email. -/
def find_user (users : List User) (email : String) : Option User :=
  users.find? (fun u => u.email == pyNorm email)

/-- Outcome of a `signup` POST (app.py lines 296-325): each failure is
the flashed validation error; success carries the saved collection and
the session email. -/
inductive SignupResult where
  | invalidEmail : SignupResult
  | weakPassword : SignupResult
  | duplicateEmail : SignupResult
  | ok : List User → String → SignupResult
deriving DecidableEq

/-- Embedding of the POST branch of `signup`.  `hash` abstracts
werkzeug's `generate_password_hash` (salted one-way hash).  The email
is normalized (`strip().lower()`); `not email or "@" not in email`
rejects; a password below 6 characters rejects; an existing user with
the normalized email rejects; otherwise exactly one record is appended
and saved. -/
def signup (users : List User) (hash : String → String)
    (emailRaw password : String) : SignupResult :=
  let email := pyNorm emailRaw
  if email = "" || !(email.data.contains '@') then .invalidEmail
  else if password.length < 6 then .weakPassword
  else if (find_user users email).isSome then .duplicateEmail
  else .ok (users ++ [⟨email, hash password, []⟩]) email

/-- Outcome of a `login` POST (app.py lines 328-344): success stores
the user's email in the session; failure flashes one fixed message. -/
inductive LoginResult where
  | ok : String → LoginResult
  | fail : String → LoginResult
deriving DecidableEq

/-- Predicate: the login attempt failed. -/
def LoginResult.isFail : LoginResult → Prop
  | .ok _ => False
  | .fail _ => True

/-- Embedding of the POST branch of `login`.  `check` abstracts
werkzeug's `check_password_hash`.  `user is None or not
check_password_hash(...)` produces one undifferentiated failure. -/
def login (users : List User) (check : String → String → Bool)
    (emailRaw password : String) : LoginResult :=
  let email := pyNorm emailRaw
  match find_user users email with
  | none => .fail "Неверный email или пароль."
  | some u =>
    if check u.password_hash password then .ok u.email
    else .fail "Неверный email или пароль."

/-! ### External account verification and linking -/

/-- Outcome of `validate_direct_connection` as observed by
`connect_direct`: either the call raised `requests.RequestException`
(`exn`, the spec's `TransportError`) or it returned the tuple
`(is_valid, name_or_error)`. -/
inductive VOutcome where
  | exn : String → VOutcome
  | ret : Bool → String → VOutcome
deriving DecidableEq

/-- Outcome of a `connect_direct` POST (app.py lines 365-412). -/
inductive ConnectResult where
  | missingInput : ConnectResult
  | userNotFound : ConnectResult
  | duplicate : ConnectResult
  | transportError : String → ConnectResult
  | verifyFailed : String → ConnectResult
  | ok : ConnectResult
deriving DecidableEq

/-- Embedding of `connect_direct`.  `se` is `session["user_email"]`;
`v` is the behavior of the verifier call on this request.  The result
pairs the flashed outcome with the stored users collection after the
request (unchanged except on success, where `save_users` persists the
one appended account). -/
def connect_direct (users : List User) (se tokenRaw loginRaw : String)
    (v : VOutcome) : ConnectResult × List User :=
  let token := pyStripS tokenRaw
  let login := pyStripS loginRaw
  if token = "" || login = "" then (.missingInput, users)
  else
    match users.findIdx? (fun u => u.email == se) with
    | none => (.userNotFound, users)
    | some i =>
      match users[i]? with
      | none => (.userNotFound, users)
      | some u =>
        if (u.direct_accounts.find? (fun acc => acc.direct_login == login)).isSome then
          (.duplicate, users)
        else
          match v with
          | .exn m => (.transportError m, users)
          | .ret false m => (.verifyFailed m, users)
          | .ret true name =>
            (.ok, users.set i
              ⟨u.email, u.password_hash,
                u.direct_accounts ++ [⟨login, name, token⟩]⟩)

/-- Number of linked accounts with the given login on user `i`. -/
def countLinked (users : List User) (i : Nat) (login : String) : Nat :=
  match users[i]? with
  | some u => (u.direct_accounts.filter (fun a => a.direct_login == login)).length
  | none => 0

/-- An HTTP response of the verification API as consumed by
`validate_direct_connection`: status code, raw body text, and the
parsed JSON body (`response.json()`, assumed to parse to an object as
the API contract guarantees). -/
structure ApiResponse where
  status : Nat
  text : String
  body : Rec

/-- Embedding of the response handling of `validate_direct_connection`
(app.py lines 238-254).  Returns `none` where the Python would raise
(error envelope or result set of an unexpected shape); otherwise the
returned tuple `(is_valid, message_or_name)`, with the second
component a `JVal` because `customer.get("Name") or
customer.get("Login")` may be `None`. -/
def validate_direct_connection (resp : ApiResponse) : Option (Bool × JVal) :=
  if resp.status ≥ 400 then
    some (false, .str ("HTTP " ++ toString resp.status ++ ": " ++ pyTake resp.text 200))
  else
    match rget resp.body "error" with
    | some (.obj efs) =>
      some (false,
        pyOr (dgetD efs "error_detail" .null)
          (pyOr (dgetD efs "error_string" .null)
            (.str "Неизвестная ошибка API")))
    | some _ => none
    | none =>
      match dgetD resp.body "result" (.obj []) with
      | .obj rfs =>
        let customers := dgetD rfs "Customers" (.arr [])
        if pyTruthy customers = false then
          some (false, .str "API не вернуло клиентов по указанному логину.")
        else
          match customers with
          | .arr (.obj cfs :: _) =>
            some (true, pyOr (dgetD cfs "Name" .null) (dgetD cfs "Login" .null))
          | _ => none
      | _ => none

/-! ### Case creation and editing -/

/-- The slug of a stored case record (`case["slug"]`). -/
def slugOf (c : Rec) : Option String :=
  match rget c "slug" with
  | some (.str s) => some s
  | _ => none

/-- The set of slugs of a loaded collection, `{case["slug"] for case
in load_cases()}` (records without a string slug contribute nothing). -/
def slugsOf (cases : List Rec) : List String := cases.filterMap slugOf

/-- Form data of the admin case form.  `coverUpload` models
`request.files.get("cover_image")`: `none` when no file was uploaded,
`some none` when a file was uploaded but `save_cover_file` rejected its
extension, `some (some path)` when it was stored under `path`. -/
structure CaseForm where
  title : String
  subtitle : String
  duration : String
  teaser : String
  metric_1_label : String
  metric_1_before : String
  metric_1_after : String
  metric_1_dynamic : String
  metric_1_trend : String
  metric_1_color : String
  metric_2_label : String
  metric_2_before : String
  metric_2_after : String
  metric_2_dynamic : String
  metric_2_trend : String
  metric_2_color : String
  task : String
  hypothesis : String
  actions : String
  result : String
  conclusion : String
  custom_content : String
  tags : String
  project_stages : List String
  coverUpload : Option (Option String)

/-- Python `value.strip() or default`. -/
def stripOr (s d : String) : String :=
  if pyStripS s = "" then d else pyStripS s

/-- The non-slug, non-title, non-cover fields shared by the create and
edit dict literals, in source order. -/
def formFields (f : CaseForm) : List (String × JVal) :=
  [("subtitle", .str (pyStripS f.subtitle)),
   ("duration", .str (pyStripS f.duration)),
   ("teaser", .str (pyStripS f.teaser))]

/-- The metric/narrative fields of the create and edit dict literals,
in source order. -/
def formFieldsTail (f : CaseForm) : List (String × JVal) :=
  [("metric_1_label", .str (pyStripS f.metric_1_label)),
   ("metric_1_before", .str (pyStripS f.metric_1_before)),
   ("metric_1_after", .str (pyStripS f.metric_1_after)),
   ("metric_1_dynamic", .str (pyStripS f.metric_1_dynamic)),
   ("metric_1_trend", .str (stripOr f.metric_1_trend "up")),
   ("metric_1_color", .str (stripOr f.metric_1_color "green")),
   ("metric_2_label", .str (pyStripS f.metric_2_label)),
   ("metric_2_before", .str (pyStripS f.metric_2_before)),
   ("metric_2_after", .str (pyStripS f.metric_2_after)),
   ("metric_2_dynamic", .str (pyStripS f.metric_2_dynamic)),
   ("metric_2_trend", .str (stripOr f.metric_2_trend "up")),
   ("metric_2_color", .str (stripOr f.metric_2_color "green")),
   ("task", .str (pyStripS f.task)),
   ("hypothesis", .str (pyStripS f.hypothesis)),
   ("actions", .str (pyStripS f.actions)),
   ("result", .str (pyStripS f.result)),
   ("conclusion", .str (pyStripS f.conclusion)),
   ("custom_content", .str (pyStripS f.custom_content)),
   ("tags", .arr ((parse_tags f.tags).map .str)),
   ("project_stages", .arr ((parse_project_stages f.project_stages).map .str))]

/-- Outcome of the `admin_new_case` POST (app.py lines 523-575). -/
inductive NewCaseResult where
  | badTitle : NewCaseResult
  | badCover : NewCaseResult
  | ok : List Rec → NewCaseResult

/-- Embedding of `admin_new_case`: validate the title, resolve the
cover upload, build `case_data` (slug from `make_unique_slug` on the
current collection), append and save. -/
def admin_new_case (cases : List Rec) (f : CaseForm) : NewCaseResult :=
  let title := pyStripS f.title
  if title = "" then .badTitle
  else
    match f.coverUpload with
    | some none => .badCover
    | up =>
      let cover : JVal := .str ((up.join).getD "")
      .ok (cases ++
        [("slug", .str (make_unique_slug (slugsOf cases) title none)) ::
         ("title", .str title) ::
         formFields f ++ [("cover_image", cover)] ++ formFieldsTail f])

/-- Outcome of the `admin_edit_case` POST (app.py lines 578-640). -/
inductive EditResult where
  | notFound : EditResult
  | badTitle : EditResult
  | badCover : EditResult
  | ok : List Rec → EditResult

/-- The pairs passed to `case.update({...})` in `admin_edit_case`, in
source order. -/
def editPairs (newSlug title : String) (newCover : JVal) (f : CaseForm) :
    List (String × JVal) :=
  ("slug", .str newSlug) :: ("title", .str title) ::
    formFields f ++ [("cover_image", newCover)] ++ formFieldsTail f

/-- Embedding of `admin_edit_case`: find the case by slug (404
otherwise), validate the title, resolve the cover (keeping the stored
one when no file is uploaded), recompute the slug with
`old_slug = case["slug"]`, update the record in place and save. -/
def admin_edit_case (cases : List Rec) (slug : String) (f : CaseForm) :
    EditResult :=
  match cases.findIdx? (fun c => slugOf c == some slug) with
  | none => .notFound
  | some i =>
    match cases[i]? with
    | none => .notFound
    | some c =>
      let title := pyStripS f.title
      if title = "" then .badTitle
      else
        match f.coverUpload with
        | some none => .badCover
        | up =>
          let newCover : JVal :=
            match up with
            | some (some path) => .str path
            | _ => dgetD c "cover_image" (.str "")
          let newSlug := make_unique_slug (slugsOf cases) title (some slug)
          .ok (cases.set i (caseUpdate c (editPairs newSlug title newCover f)))

/-- A form submission whose only non-empty field is the title
(used to instantiate the flow theorems on concrete inputs). -/
def mkForm (t : String) : CaseForm :=
  ⟨t, "", "", "", "", "", "", "", "", "", "", "", "", "", "", "", "",
   "", "", "", "", "", "", [], none⟩

/-- A stored collection in which the base slug `a` of the second
case's title has become free while the case still carries the suffixed
slug `a-2` (reachable by creating two cases titled `A` and then
retitling the first one to `B`). -/
def c3Cases : List Rec :=
  [[("slug", .str "b"), ("title", .str "B")],
   [("slug", .str "a-2"), ("title", .str "A")]]

/-! ## Theorems -/

/-! ### Character-level facts -/

theorem lowerPairs_snd_fixed :
    lowerPairs.all
      (fun p => (lowerPairs.find? (fun q => q.1 == p.2)).isNone) = true := by
  decide

theorem lowerPairs_not_space :
    lowerPairs.all (fun p => !pyIsSpace p.1 && !pyIsSpace p.2) = true := by
  decide

theorem pyLowerChar_idem (c : Char) :
    pyLowerChar (pyLowerChar c) = pyLowerChar c := by
  unfold pyLowerChar
  cases h : lowerPairs.find? (fun p => p.1 == c) with
  | none => simp [h]
  | some p =>
    have hp : p ∈ lowerPairs := List.mem_of_find?_eq_some h
    have := (List.all_eq_true.mp lowerPairs_snd_fixed) p hp
    simp [Option.isNone_iff_eq_none.mp this]

theorem pyIsSpace_pyLowerChar (c : Char) :
    pyIsSpace (pyLowerChar c) = pyIsSpace c := by
  unfold pyLowerChar
  cases h : lowerPairs.find? (fun p => p.1 == c) with
  | none => rfl
  | some p =>
    have hp : p ∈ lowerPairs := List.mem_of_find?_eq_some h
    have hs := (List.all_eq_true.mp lowerPairs_not_space) p hp
    have hc : p.1 = c := by simpa using List.find?_some h
    rw [Bool.and_eq_true, Bool.not_eq_true', Bool.not_eq_true'] at hs
    rw [hs.2, ← hc, hs.1]

/-! ### Strip / lower interaction -/

theorem dropWhile_head_false {p : α → Bool} :
    ∀ {l a t}, List.dropWhile p l = a :: t → p a = false := by
  intro l
  induction l with
  | nil => intro a t h; cases h
  | cons x xs ih =>
    intro a t h
    rw [List.dropWhile_cons] at h
    by_cases hx : p x = true
    · exact ih (by simpa [hx] using h)
    · rw [if_neg hx] at h
      cases h
      exact Bool.not_eq_true _ |>.mp hx

theorem dropWhile_dropWhile (p : α → Bool) (l : List α) :
    List.dropWhile p (List.dropWhile p l) = List.dropWhile p l := by
  cases h : List.dropWhile p l with
  | nil => rfl
  | cons a t => rw [List.dropWhile_cons, dropWhile_head_false h]; simp

theorem backStrip_cons {p : α → Bool} (a : α) (t : List α) (ha : p a = false) :
    ∃ t2, ((a :: t).reverse.dropWhile p).reverse = a :: t2 := by
  rw [List.reverse_cons, List.dropWhile_append]
  by_cases h : (List.dropWhile p t.reverse).isEmpty = true
  · rw [if_pos h]
    exact ⟨[], by simp [List.dropWhile_cons, ha]⟩
  · rw [if_neg h]
    exact ⟨(List.dropWhile p t.reverse).reverse, by simp⟩

theorem stripFront_pyStripL (l : List Char) :
    List.dropWhile pyIsSpace (pyStripL l) = pyStripL l := by
  unfold pyStripL
  cases hc : l.dropWhile pyIsSpace with
  | nil => simp
  | cons a t =>
    have ha : pyIsSpace a = false := dropWhile_head_false hc
    obtain ⟨t2, ht2⟩ := backStrip_cons a t ha
    rw [ht2, List.dropWhile_cons, ha]
    simp

theorem pyStripL_idem (l : List Char) : pyStripL (pyStripL l) = pyStripL l := by
  conv_lhs => rw [pyStripL, stripFront_pyStripL l]
  rw [pyStripL, List.reverse_reverse, dropWhile_dropWhile]

theorem pyStripL_map_lower (l : List Char) :
    pyStripL (pyLowerL l) = pyLowerL (pyStripL l) := by
  have hcomp : (pyIsSpace ∘ pyLowerChar) = pyIsSpace := by
    funext c; exact pyIsSpace_pyLowerChar c
  unfold pyStripL pyLowerL
  rw [List.dropWhile_map, hcomp, ← List.map_reverse, List.dropWhile_map, hcomp,
    ← List.map_reverse]

theorem pyLowerL_idem (l : List Char) : pyLowerL (pyLowerL l) = pyLowerL l := by
  unfold pyLowerL
  rw [List.map_map]
  congr 1
  funext c
  exact pyLowerChar_idem c

theorem pyNorm_idem (s : String) : pyNorm (pyNorm s) = pyNorm s := by
  unfold pyNorm
  rw [show (String.mk (pyLowerL (pyStripL s.data))).data
      = pyLowerL (pyStripL s.data) from rfl]
  rw [pyStripL_map_lower, pyLowerL_idem, pyStripL_idem]

/-! ### Slugify facts -/

theorem string_mk_ne_empty {l : List Char} (h : l ≠ []) : String.mk l ≠ "" := by
  intro he
  exact h (congrArg String.data he)

theorem slugify_ne_empty (t : String) : slugify t ≠ "" := by
  unfold slugify
  by_cases h : (collapseHyphens (hyphenateSpaces
      ((pyLowerL (pyStripL (t.data.filter isSlugChar))).map
        (fun c => if c == 'ё' then 'е' else c)))).isEmpty = true
  · rw [if_pos h]; decide
  · rw [if_neg h]
    exact string_mk_ne_empty (by simpa using h)

/-! ### Decimal representation of naturals is injective -/

theorem digitChar_inj_lt :
    ∀ a < 10, ∀ b < 10, Nat.digitChar a = Nat.digitChar b → a = b := by
  decide

theorem decRepr_lt {n : Nat} (h : n < 10) : decRepr n = [Nat.digitChar n] := by
  rw [decRepr, if_pos h]

theorem decRepr_ge {n : Nat} (h : ¬ n < 10) :
    decRepr n = decRepr (n / 10) ++ [Nat.digitChar (n % 10)] := by
  conv_lhs => rw [decRepr]
  rw [if_neg h]

theorem decRepr_ne_nil (n : Nat) : decRepr n ≠ [] := by
  by_cases h : n < 10
  · rw [decRepr_lt h]; simp
  · rw [decRepr_ge h]; simp

theorem decRepr_inj : ∀ m, ∀ n, decRepr m = decRepr n → m = n := by
  intro m
  induction m using Nat.strong_induction_on with
  | _ m ih =>
    intro n h
    by_cases hm : m < 10 <;> by_cases hn : n < 10
    · rw [decRepr_lt hm, decRepr_lt hn] at h
      exact digitChar_inj_lt m hm n hn (by simpa using h)
    · rw [decRepr_lt hm, decRepr_ge hn] at h
      have hlen := congrArg List.length h
      simp at hlen
      exact absurd hlen (decRepr_ne_nil _)
    · rw [decRepr_ge hm, decRepr_lt hn] at h
      have hlen := congrArg List.length h
      simp at hlen
      exact absurd hlen (decRepr_ne_nil _)
    · rw [decRepr_ge hm, decRepr_ge hn] at h
      have h2 := congrArg List.reverse h
      rw [List.reverse_append, List.reverse_append] at h2
      simp at h2
      obtain ⟨hd, htl⟩ := h2
      have htl2 : decRepr (m / 10) = decRepr (n / 10) := by
        have := congrArg List.reverse htl
        simpa using this
      have hdiv : m / 10 = n / 10 :=
        ih (m / 10) (Nat.div_lt_self (by omega) (by omega)) (n / 10) htl2
      have hmod : m % 10 = n % 10 :=
        digitChar_inj_lt (m % 10) (Nat.mod_lt _ (by omega))
          (n % 10) (Nat.mod_lt _ (by omega)) hd
      omega

theorem toDigitsCore_eq_decRepr :
    ∀ fuel n ds, n < fuel →
      Nat.toDigitsCore 10 fuel n ds = decRepr n ++ ds := by
  intro fuel
  induction fuel with
  | zero => intro n ds h; omega
  | succ f ih =>
    intro n ds h
    rw [Nat.toDigitsCore]
    by_cases hz : n / 10 = 0
    · have hn : n < 10 := (Nat.div_eq_zero_iff (by omega)).mp hz
      rw [if_pos hz, decRepr_lt hn, Nat.mod_eq_of_lt hn]
      rfl
    · have hn : ¬ n < 10 := by
        intro hlt
        exact hz (Nat.div_eq_of_lt hlt)
      have h1 : 0 < n := by omega
      have h2 : n / 10 < n := Nat.div_lt_self h1 (by omega)
      have h3 : n / 10 < f := by omega
      rw [if_neg hz, ih (n / 10) _ h3, decRepr_ge hn, List.append_assoc]
      rfl

theorem string_data_inj {s t : String} (h : s.data = t.data) : s = t := by
  cases s; cases t; exact congrArg String.mk h

theorem natToString_inj {m n : Nat} (h : toString m = toString n) : m = n := by
  have hm : toString m = (decRepr m).asString := by
    show Nat.repr m = _
    rw [Nat.repr, Nat.toDigits, toDigitsCore_eq_decRepr (m + 1) m [] (by omega),
      List.append_nil]
  have hn : toString n = (decRepr n).asString := by
    show Nat.repr n = _
    rw [Nat.repr, Nat.toDigits, toDigitsCore_eq_decRepr (n + 1) n [] (by omega),
      List.append_nil]
  rw [hm, hn] at h
  exact decRepr_inj m n (congrArg String.data h)

/-! ### Correctness of the slug candidate loop -/

theorem cand_ne_base (base : String) (n : Nat) :
    base ++ "-" ++ toString n ≠ base := by
  intro h
  have := congrArg String.length h
  rw [String.length_append, String.length_append] at this
  have hone : ("-" : String).length = 1 := rfl
  omega

theorem cand_inj (base : String) {a b : Nat}
    (h : base ++ "-" ++ toString a = base ++ "-" ++ toString b) : a = b := by
  have hd := congrArg String.data h
  rw [String.data_append, String.data_append, String.data_append,
    String.data_append, List.append_assoc, List.append_assoc] at hd
  have := List.append_cancel_left (List.append_cancel_left hd)
  exact natToString_inj (string_data_inj this)

theorem slugSearch_spec (used : List String) (base : String) :
    ∀ fuel counter,
      (∃ j, j < fuel ∧ base ++ "-" ++ toString (counter + j) ∉ used) →
      ∃ j, (∀ i, i < j → base ++ "-" ++ toString (counter + i) ∈ used) ∧
        base ++ "-" ++ toString (counter + j) ∉ used ∧
        slugSearch used base fuel (base ++ "-" ++ toString counter)
          (counter + 1) = base ++ "-" ++ toString (counter + j) := by
  intro fuel
  induction fuel with
  | zero =>
    intro counter h
    obtain ⟨j, hj, _⟩ := h
    omega
  | succ f ih =>
    intro counter h
    rw [slugSearch]
    by_cases hm : (base ++ "-" ++ toString counter) ∈ used
    · rw [if_pos hm]
      obtain ⟨j, hj, hfree⟩ := h
      have hj0 : j ≠ 0 := by
        intro h0
        rw [h0] at hfree
        simp at hfree
        exact hfree hm
      obtain ⟨j', rfl⟩ := Nat.exists_eq_succ_of_ne_zero hj0
      have h' : ∃ k, k < f ∧ base ++ "-" ++ toString (counter + 1 + k) ∉ used := by
        refine ⟨j', by omega, ?_⟩
        have : counter + 1 + j' = counter + (j' + 1) := by omega
        rw [this]
        exact hfree
      obtain ⟨k, hk1, hk2, hk3⟩ := ih (counter + 1) h'
      refine ⟨k + 1, ?_, ?_, ?_⟩
      · intro i hi
        cases i with
        | zero => simpa using hm
        | succ i' =>
          have : counter + (i' + 1) = counter + 1 + i' := by omega
          rw [this]
          exact hk1 i' (by omega)
      · have : counter + (k + 1) = counter + 1 + k := by omega
        rw [this]
        exact hk2
      · have : counter + (k + 1) = counter + 1 + k := by omega
        rw [this]
        exact hk3
    · rw [if_neg hm]
      exact ⟨0, by omega, by simpa using hm, by simp⟩

theorem exists_free_cand (used : List String) (base : String)
    (hb : base ∈ used) :
    ∃ j, j < used.length ∧ base ++ "-" ++ toString (2 + j) ∉ used := by
  by_contra hcon
  push_neg at hcon
  have hnd : (base :: (List.range used.length).map
      (fun j => base ++ "-" ++ toString (2 + j))).Nodup := by
    rw [List.nodup_cons]
    constructor
    · intro hmem
      obtain ⟨j, _, heq⟩ := List.mem_map.mp hmem
      exact cand_ne_base base (2 + j) heq
    · refine List.Nodup.map ?_ (List.nodup_range _)
      intro a b hab
      have := cand_inj base hab
      omega
  have hsub : (base :: (List.range used.length).map
      (fun j => base ++ "-" ++ toString (2 + j))) ⊆ used := by
    intro x hx
    rcases List.mem_cons.mp hx with rfl | hx2
    · exact hb
    · obtain ⟨j, hj, rfl⟩ := List.mem_map.mp hx2
      exact hcon j (List.mem_range.mp hj)
  have := (hnd.subperm hsub).length_le
  simp at this

/-- Result of `make_unique_slug` when the derived base slug is free. -/
theorem make_unique_slug_free (slugs : List String) (title : String)
    (old : Option String) (h : slugify title ∉ usedSlugs slugs old) :
    make_unique_slug slugs title old = slugify title := by
  rw [make_unique_slug, slugSearch, if_neg h]

/-- Result of `make_unique_slug` when the base slug is taken: the
first `base-n` (n from 2 upward) that is free. -/
theorem make_unique_slug_taken (slugs : List String) (title : String)
    (old : Option String) (h : slugify title ∈ usedSlugs slugs old) :
    ∃ n, 2 ≤ n ∧
      (∀ m, 2 ≤ m → m < n →
        slugify title ++ "-" ++ toString m ∈ usedSlugs slugs old) ∧
      slugify title ++ "-" ++ toString n ∉ usedSlugs slugs old ∧
      make_unique_slug slugs title old
        = slugify title ++ "-" ++ toString n := by
  rw [make_unique_slug, slugSearch, if_pos h]
  obtain ⟨j, hj, hfree⟩ :=
    exists_free_cand (usedSlugs slugs old) (slugify title) h
  obtain ⟨k, hk1, hk2, hk3⟩ := slugSearch_spec (usedSlugs slugs old)
    (slugify title) (usedSlugs slugs old).length 2 ⟨j, hj, hfree⟩
  refine ⟨2 + k, by omega, ?_, hk2, hk3⟩
  intro m hm2 hmk
  have : m = 2 + (m - 2) := by omega
  rw [this]
  exact hk1 (m - 2) (by omega)

/-! ### Record (dict) lemmas -/

theorem rget_cons (k' : String) (v' : JVal) (r : Rec) (k : String) :
    rget ((k', v') :: r) k = if (k' == k) = true then some v' else rget r k := by
  unfold rget
  rw [List.find?_cons]
  by_cases h : (k' == k) = true
  · simp [h]
  · simp [h]

theorem rget_setdefault_ne (r : Rec) (k' : String) (v : JVal) (k : String)
    (h : k' ≠ k) : rget (setdefault r k' v) k = rget r k := by
  unfold setdefault
  by_cases hp : (rget r k').isSome
  · rw [if_pos hp]
  · rw [if_neg hp]
    unfold rget
    rw [List.find?_append]
    have hne : (k' == k) = false := beq_eq_false_iff_ne.mpr h
    cases hf : List.find? (fun p => p.1 == k) r with
    | some p => simp
    | none => simp [List.find?_cons, hne]

theorem rget_setdefault_same (r : Rec) (k : String) (v : JVal)
    (h : rget r k = none) : rget (setdefault r k v) k = some v := by
  unfold setdefault
  rw [h]
  simp only [Option.isSome_none, Bool.false_eq_true, if_false]
  have hf : List.find? (fun p => p.1 == k) r = none := by
    cases hfind : List.find? (fun p => p.1 == k) r with
    | none => rfl
    | some p => unfold rget at h; rw [hfind] at h; simp at h
  unfold rget
  rw [List.find?_append, hf]
  simp [List.find?_cons]

theorem rget_setdefault_keep (r : Rec) (k' : String) (v' : JVal)
    (k : String) (v : JVal) (h : rget r k = some v) :
    rget (setdefault r k' v') k = some v := by
  unfold setdefault
  by_cases hp : (rget r k').isSome
  · rw [if_pos hp]; exact h
  · rw [if_neg hp]
    have hf : ∃ p, List.find? (fun p => p.1 == k) r = some p ∧ p.2 = v := by
      unfold rget at h
      cases hfind : List.find? (fun p => p.1 == k) r with
      | none => rw [hfind] at h; simp at h
      | some p => rw [hfind] at h; exact ⟨p, rfl, by simpa using h⟩
    obtain ⟨p, hp1, hp2⟩ := hf
    unfold rget
    rw [List.find?_append, hp1]
    simp [hp2]

theorem rget_rset_same (r : Rec) (k : String) (v : JVal) :
    rget (rset r k v) k = some v := by
  induction r with
  | nil => simp [rset, rget_cons]
  | cons p rest ih =>
    obtain ⟨k', v'⟩ := p
    rw [rset]
    by_cases h : (k' == k) = true
    · simp [h, rget_cons]
    · simp only [h, Bool.false_eq_true, if_false]
      rw [rget_cons, if_neg h]
      exact ih

theorem rget_rset_ne (r : Rec) (k' : String) (v : JVal) (k : String)
    (h : k' ≠ k) : rget (rset r k' v) k = rget r k := by
  have hne : (k' == k) = false := beq_eq_false_iff_ne.mpr h
  induction r with
  | nil => simp [rset, rget_cons, hne]
  | cons p rest ih =>
    obtain ⟨a, b⟩ := p
    rw [rset]
    by_cases ha : (a == k') = true
    · have ha2 : a = k' := by simpa using ha
      simp only [ha, if_true]
      rw [rget_cons, rget_cons, ha2, hne]
      simp
    · simp only [ha, Bool.false_eq_true, if_false]
      rw [rget_cons, rget_cons, ih]

theorem caseUpdate_cons (c : Rec) (p : String × JVal)
    (ps : List (String × JVal)) :
    caseUpdate c (p :: ps) = caseUpdate (rset c p.1 p.2) ps := rfl

theorem rget_caseUpdate_not_mem (ps : List (String × JVal)) :
    ∀ (c : Rec) (k : String), (∀ p ∈ ps, p.1 ≠ k) →
      rget (caseUpdate c ps) k = rget c k := by
  induction ps with
  | nil => intro c k _; rfl
  | cons p rest ih =>
    intro c k h
    rw [caseUpdate_cons, ih (rset c p.1 p.2) k
      (fun q hq => h q (List.mem_cons_of_mem _ hq))]
    exact rget_rset_ne c p.1 p.2 k (h p (List.mem_cons_self _ _))

theorem caseUpdate_cons_mk (c : Rec) (k : String) (v : JVal)
    (ps : List (String × JVal)) :
    caseUpdate c ((k, v) :: ps) = caseUpdate (rset c k v) ps := rfl

theorem caseUpdate_append (c : Rec) (l1 l2 : List (String × JVal)) :
    caseUpdate c (l1 ++ l2) = caseUpdate (caseUpdate c l1) l2 := by
  unfold caseUpdate
  rw [List.foldl_append]

theorem formFields_keys (f : CaseForm) :
    ∀ p ∈ formFields f, p.1 ≠ "slug" := by
  intro p hp
  fin_cases hp <;> simp

theorem formFieldsTail_keys (f : CaseForm) :
    ∀ p ∈ formFieldsTail f, p.1 ≠ "slug" := by
  intro p hp
  fin_cases hp <;> simp

theorem caseUpdate_nil (c : Rec) : caseUpdate c [] = c := rfl

theorem slugOf_caseUpdate_editPairs (c : Rec) (newSlug title : String)
    (cover : JVal) (f : CaseForm) :
    slugOf (caseUpdate c (editPairs newSlug title cover f)) = some newSlug := by
  unfold editPairs
  rw [caseUpdate_append, caseUpdate_append, caseUpdate_cons_mk,
    caseUpdate_cons_mk, caseUpdate_cons_mk, caseUpdate_nil]
  unfold slugOf
  rw [rget_caseUpdate_not_mem _ _ _ (formFieldsTail_keys f),
    rget_rset_ne _ _ _ _ (by decide),
    rget_caseUpdate_not_mem _ _ _ (formFields_keys f),
    rget_rset_ne _ _ _ _ (by decide), rget_rset_same]

/-! ### Creating a case -/

theorem admin_new_case_ok (cases : List Rec) (f : CaseForm)
    (ht : pyStripS f.title ≠ "") (hcov : f.coverUpload ≠ some none) :
    ∃ cs, admin_new_case cases f = .ok cs ∧
      slugsOf cs = slugsOf cases ++
        [make_unique_slug (slugsOf cases) (pyStripS f.title) none] := by
  unfold admin_new_case
  rw [if_neg ht]
  rcases hup : f.coverUpload with _ | op
  · refine ⟨_, rfl, ?_⟩
    simp [slugsOf, List.filterMap_append, slugOf, rget_cons, List.filterMap]
  · rcases op with _ | p
    · exact absurd hup hcov
    · refine ⟨_, rfl, ?_⟩
      simp [slugsOf, List.filterMap_append, slugOf, rget_cons, List.filterMap]

theorem dash_toString_two (b : String) : b ++ "-" ++ toString 2 = b ++ "-2" := by
  rw [String.append_assoc]
  rfl

/-! ### C1 -/

/-- C1: `make_unique_slug` returns the base slug derived by `slugify`
when no stored case has that slug (with `exclude_slug`, when given and
truthy, treated as not taken — `usedSlugs`); otherwise it returns
`base-n` for the smallest integer `n ≥ 2` such that `base-n` is not a
stored slug.  Consequently, creating two cases whose titles derive the
same (initially free) base slug stores two distinct slugs, the second
being the base suffixed with `-2`. -/
theorem c1_slug_uniqueness (slugs : List String) (title : String)
    (old : Option String) :
    (slugify title ∉ usedSlugs slugs old →
      make_unique_slug slugs title old = slugify title) ∧
    (slugify title ∈ usedSlugs slugs old →
      ∃ n, 2 ≤ n ∧
        (∀ m, 2 ≤ m → m < n →
          slugify title ++ "-" ++ toString m ∈ usedSlugs slugs old) ∧
        slugify title ++ "-" ++ toString n ∉ usedSlugs slugs old ∧
        make_unique_slug slugs title old
          = slugify title ++ "-" ++ toString n) ∧
    (∀ (cases : List Rec) (f1 f2 : CaseForm),
      pyStripS f1.title ≠ "" → pyStripS f2.title ≠ "" →
      f1.coverUpload ≠ some none → f2.coverUpload ≠ some none →
      slugify (pyStripS f2.title) = slugify (pyStripS f1.title) →
      slugify (pyStripS f1.title) ∉ slugsOf cases →
      slugify (pyStripS f1.title) ++ "-2" ∉ slugsOf cases →
      ∃ cs1 cs2,
        admin_new_case cases f1 = .ok cs1 ∧
        admin_new_case cs1 f2 = .ok cs2 ∧
        slugsOf cs2 = slugsOf cases ++
          [slugify (pyStripS f1.title),
           slugify (pyStripS f1.title) ++ "-2"] ∧
        slugify (pyStripS f1.title) ≠ slugify (pyStripS f1.title) ++ "-2") := by
  refine ⟨make_unique_slug_free slugs title old,
    make_unique_slug_taken slugs title old, ?_⟩
  intro cases f1 f2 ht1 ht2 hcov1 hcov2 hsame hfree hfree2
  obtain ⟨cs1, hcs1, hslugs1⟩ := admin_new_case_ok cases f1 ht1 hcov1
  have hslug1 : make_unique_slug (slugsOf cases) (pyStripS f1.title) none
      = slugify (pyStripS f1.title) :=
    make_unique_slug_free _ _ none hfree
  obtain ⟨cs2, hcs2, hslugs2⟩ := admin_new_case_ok cs1 f2 ht2 hcov2
  have hused : slugsOf cs1
      = slugsOf cases ++ [slugify (pyStripS f1.title)] := by
    rw [hslugs1, hslug1]
  have hmem : slugify (pyStripS f2.title) ∈ usedSlugs (slugsOf cs1) none := by
    rw [hsame]
    unfold usedSlugs
    rw [hused]
    exact List.mem_append_right _ (List.mem_singleton.mpr rfl)
  obtain ⟨n, hn2, hmin, hfreeN, heq⟩ :=
    make_unique_slug_taken (slugsOf cs1) (pyStripS f2.title) none hmem
  have hn : n = 2 := by
    by_contra hne
    have h2n : 2 < n := by omega
    have := hmin 2 (by omega) h2n
    rw [hsame, dash_toString_two] at this
    unfold usedSlugs at this
    rw [hused] at this
    rcases List.mem_append.mp this with hbad | hbad
    · exact hfree2 hbad
    · have := List.mem_singleton.mp hbad
      exact cand_ne_base (slugify (pyStripS f1.title)) 2
        (by rw [dash_toString_two]; exact this)
  rw [hn, hsame, dash_toString_two] at heq
  refine ⟨cs1, cs2, hcs1, hcs2, ?_, ?_⟩
  · rw [hslugs2, heq, hused, List.append_assoc]
    rfl
  · intro hbad
    exact cand_ne_base (slugify (pyStripS f1.title)) 2
      (by rw [dash_toString_two]; exact hbad.symm)

/-- Witness for C1: on a store holding only the slug `other`, the
title `Test` keeps its base slug `test`; creating two cases titled
`Same` on an empty store yields the slugs `same` and `same-2`. -/
theorem c1_witness :
    make_unique_slug ["other"] "Test" none = "test" ∧
    ∃ cs1 cs2,
      admin_new_case ([] : List Rec) (mkForm "Same") = .ok cs1 ∧
      admin_new_case cs1 (mkForm "Same") = .ok cs2 ∧
      slugsOf cs2 = ["same", "same-2"] ∧ ("same" : String) ≠ "same-2" := by
  constructor
  · exact (c1_slug_uniqueness ["other"] "Test" none).1 (by decide)
  · exact (c1_slug_uniqueness [] "x" none).2.2 [] (mkForm "Same")
      (mkForm "Same") (by decide) (by decide) (by decide) (by decide) rfl
      (by decide) (by decide)

/-! ### C2 -/

/-- C2 (code bug): the character filter of `slugify` uses the ranges
`а-яА-Я`, which exclude `ё` (U+0451) and `Ё` (U+0401), so both are
removed by the first step and the subsequent `replace("ё", "е")` can
never fire.  Hence `slugify` deletes `ё` instead of normalizing it to
`е`: `"мёд"` becomes `"мд"` (not `"мед"`), and an input consisting
only of `ё` falls back to `"case"`.  The remaining steps behave as the
claim describes, as the sample title shows. -/
theorem c2_slugify_drops_yo :
    slugify "мёд" = "мд" ∧
    slugify "Ёлка" = "лка" ∧
    slugify "ё" = "case" ∧
    slugify "Кейс №1 — рост!" = "кейс-1-рост" ∧
    ("мд" : String) ≠ "мед" := by
  refine ⟨?_, ?_, ?_, ?_, ?_⟩ <;> decide

/-! ### C3 -/

/-- C3 counterexample: in the stored collection `c3Cases` the second
case has slug `a-2` and title `A`.  Submitting an edit whose title
equals the stored title (`A`) recomputes the slug and reassigns it to
`a` (the base slug, now free), so a non-title-changing edit does
change the slug: the claim as stated is false. -/
theorem c3_counterexample :
    rget ([("slug", JVal.str "a-2"), ("title", JVal.str "A")] : Rec) "title"
        = some (.str (pyStripS (mkForm "A").title)) ∧
    (match admin_edit_case c3Cases "a-2" (mkForm "A") with
      | .ok cs => cs[1]?.bind slugOf
      | _ => none) = some "a" ∧
    ("a" : String) ≠ "a-2" := by
  refine ⟨rfl, by decide, by decide⟩

/-- C3 (amended): editing a case whose stored slug `s` equals the base
slug derived from the submitted (unchanged) title leaves the slug
equal to `s`.  (When the stored slug carries a numeric suffix and an
earlier candidate has become free, the recomputation may reassign the
slug even though the title did not change, as `c3_counterexample`
shows; the claim holds exactly when `s = slugify(title)`.) -/
theorem c3_slug_stability (cases : List Rec) (slug : String) (f : CaseForm)
    (i : Nat) (c : Rec)
    (hfind : cases.findIdx? (fun d => slugOf d == some slug) = some i)
    (hc : cases[i]? = some c)
    (htitle : rget c "title" = some (.str (pyStripS f.title)))
    (ht : pyStripS f.title ≠ "")
    (hcov : f.coverUpload ≠ some none)
    (hbase : slugify (pyStripS f.title) = slug) :
    ∃ cs, admin_edit_case cases slug f = .ok cs ∧
      ∃ c2, cs[i]? = some c2 ∧ slugOf c2 = some slug := by
  have hslug : make_unique_slug (slugsOf cases) (pyStripS f.title)
      (some slug) = slug := by
    have hne : slug ≠ "" := hbase ▸ slugify_ne_empty (pyStripS f.title)
    have hnotin : slugify (pyStripS f.title)
        ∉ usedSlugs (slugsOf cases) (some slug) := by
      simp only [usedSlugs]
      rw [if_neg hne, hbase]
      simp [List.mem_filter]
    rw [make_unique_slug_free _ _ _ hnotin, hbase]
  have hlt : i < cases.length := (List.getElem?_eq_some.mp hc).1
  unfold admin_edit_case
  simp only [hfind, hc]
  rw [if_neg ht]
  rcases hup : f.coverUpload with _ | op
  · refine ⟨_, rfl, ?_⟩
    rw [List.getElem?_set_self (by simpa using hlt)]
    exact ⟨_, rfl, by rw [hslug]; exact slugOf_caseUpdate_editPairs _ _ _ _ _⟩
  · rcases op with _ | p
    · exact absurd hup hcov
    · refine ⟨_, rfl, ?_⟩
      rw [List.getElem?_set_self (by simpa using hlt)]
      exact ⟨_, rfl, by rw [hslug]; exact slugOf_caseUpdate_editPairs _ _ _ _ _⟩

/-- Witness for C3 (amended): editing the only stored case (slug
`hello`, title `Hello`) with the same title keeps the slug `hello`. -/
theorem c3_witness :
    ∃ cs, admin_edit_case [[("slug", JVal.str "hello"),
        ("title", JVal.str "Hello")]] "hello" (mkForm "Hello") = .ok cs ∧
      ∃ c2, cs[0]? = some c2 ∧ slugOf c2 = some "hello" := by
  exact c3_slug_stability _ "hello" (mkForm "Hello") 0 _
    (by decide) rfl rfl (by decide) (by decide) (by decide)

/-! ### Backfill lemmas (C4 / C10) -/

theorem rget_setdefault_ne_b (r : Rec) (k' : String) (v : JVal) (k : String)
    (h : (k' == k) = false) : rget (setdefault r k' v) k = rget r k :=
  rget_setdefault_ne r k' v k (beq_eq_false_iff_ne.mp h)

theorem dgetD_setdefault_ne_b (r : Rec) (k' : String) (v : JVal) (k : String)
    (d : JVal) (h : (k' == k) = false) :
    dgetD (setdefault r k' v) k d = dgetD r k d := by
  unfold dgetD
  rw [rget_setdefault_ne_b r k' v k h]

theorem decodeItems_encode (rs : List Rec) :
    decodeItems (rs.map .obj) = some rs := by
  induction rs with
  | nil => rfl
  | cons r rest ih => simp [List.map_cons, decodeItems, ih]

theorem readFile_writeFile (fs : FileSys) (p : List String) (v : JVal)
    (fs2 : FileSys) (h : writeFile fs p v = some fs2) :
    readFile fs2 p = some v := by
  unfold writeFile at h
  by_cases hd : p.dropLast ∈ fs.dirs
  · rw [if_pos hd] at h
    cases h
    simp [readFile, List.find?_cons]
  · rw [if_neg hd] at h
    cases h

/-! ### C10 -/

/-- C10: `load_cases` backfills a missing `metric_1_after` with the
value of the legacy field `metric_1` when present and `""` otherwise
(`case.get("metric_1", "")`), likewise `metric_2_after` from
`metric_2`; every other optional field missing from a stored record is
backfilled with its fixed constant default (listed in
`caseConstDefaults`); and a field already present is never
overwritten. -/
theorem c10_legacy_backfill (c : Rec) :
    (rget c "metric_1_after" = none →
      rget (backfillCase c) "metric_1_after"
        = some (dgetD c "metric_1" (.str ""))) ∧
    (rget c "metric_2_after" = none →
      rget (backfillCase c) "metric_2_after"
        = some (dgetD c "metric_2" (.str ""))) ∧
    (∀ p ∈ caseConstDefaults, rget c p.1 = none →
      rget (backfillCase c) p.1 = some p.2) ∧
    (∀ k v, rget c k = some v → rget (backfillCase c) k = some v) := by
  refine ⟨?_, ?_, ?_, ?_⟩
  · intro h
    simp [backfillCase, rget_setdefault_ne_b, dgetD_setdefault_ne_b,
      rget_setdefault_same, h]
  · intro h
    simp [backfillCase, rget_setdefault_ne_b, dgetD_setdefault_ne_b,
      rget_setdefault_same, h]
  · intro p hp
    fin_cases hp <;>
      (intro h
       simp [backfillCase, rget_setdefault_ne_b, dgetD_setdefault_ne_b,
         rget_setdefault_same, h])
  · intro k v h
    simp only [backfillCase]
    repeat apply rget_setdefault_keep
    exact h

/-- Witness for C10: on the record
`[(title, T), (metric_1, 95), (niche, x)]` the missing
`metric_1_after` is backfilled from the legacy `metric_1`, the missing
`icon` gets its constant default, and the present `niche` keeps its
stored value. -/
theorem c10_witness :
    rget (backfillCase [("title", JVal.str "T"), ("metric_1", JVal.str "95"),
        ("niche", JVal.str "x")]) "metric_1_after" = some (.str "95") ∧
    rget (backfillCase [("title", JVal.str "T"), ("metric_1", JVal.str "95"),
        ("niche", JVal.str "x")]) "icon" = some (.str "⚖️") ∧
    rget (backfillCase [("title", JVal.str "T"), ("metric_1", JVal.str "95"),
        ("niche", JVal.str "x")]) "niche" = some (.str "x") := by
  refine ⟨(c10_legacy_backfill _).1 rfl, ?_, ?_⟩
  · exact (c10_legacy_backfill _).2.2.1 ("icon", .str "⚖️")
      (by simp [caseConstDefaults]) rfl
  · exact (c10_legacy_backfill _).2.2.2 "niche" (.str "x") rfl

/-! ### C4 -/

/-- C4: loading immediately after saving the Case collection yields
exactly the saved records with the backfill of `load_cases` applied:
the decoded value round-trips (`load(save(records)) = map backfill
records`, also through the file system when the save succeeds), every
stored field value survives unaltered, and keys outside the backfill
list are untouched, so nothing is altered or dropped by the cycle. -/
theorem c4_store_round_trip :
    (∀ rs : List Rec,
      load_cases (some (encodeCases rs)) = some (rs.map backfillCase)) ∧
    (∀ (fs : FileSys) (rs : List Rec) (fs2 : FileSys),
      save_cases fs rs = some fs2 →
      load_cases (readFile fs2 DATA_FILE) = some (rs.map backfillCase)) ∧
    (∀ (r : Rec) (k : String) (v : JVal), rget r k = some v →
      rget (backfillCase r) k = some v) ∧
    (∀ (r : Rec) (k : String), k ∉ caseDefaultKeys →
      rget (backfillCase r) k = rget r k) := by
  have hload : ∀ rs : List Rec,
      load_cases (some (encodeCases rs)) = some (rs.map backfillCase) := by
    intro rs
    simp [load_cases, encodeCases, decodeCases, decodeItems_encode]
  refine ⟨hload, ?_, ?_, ?_⟩
  · intro fs rs fs2 h
    rw [readFile_writeFile fs DATA_FILE _ fs2 h]
    exact hload rs
  · intro r k v h
    simp only [backfillCase]
    repeat apply rget_setdefault_keep
    exact h
  · intro r k hk
    simp only [caseDefaultKeys, List.mem_cons, List.not_mem_nil] at hk
    push_neg at hk
    obtain ⟨h1, h2, h3, h4, h5, h6, h7, h8, h9, h10, h11, h12, h13, h14,
      h15, h16, h17, h18, h19, h20, h21, h22, _⟩ := hk
    simp only [backfillCase]
    rw [rget_setdefault_ne _ _ _ _ (fun he => h22 he.symm),
      rget_setdefault_ne _ _ _ _ (fun he => h21 he.symm),
      rget_setdefault_ne _ _ _ _ (fun he => h20 he.symm),
      rget_setdefault_ne _ _ _ _ (fun he => h19 he.symm),
      rget_setdefault_ne _ _ _ _ (fun he => h18 he.symm),
      rget_setdefault_ne _ _ _ _ (fun he => h17 he.symm),
      rget_setdefault_ne _ _ _ _ (fun he => h16 he.symm),
      rget_setdefault_ne _ _ _ _ (fun he => h15 he.symm),
      rget_setdefault_ne _ _ _ _ (fun he => h14 he.symm),
      rget_setdefault_ne _ _ _ _ (fun he => h13 he.symm),
      rget_setdefault_ne _ _ _ _ (fun he => h12 he.symm),
      rget_setdefault_ne _ _ _ _ (fun he => h11 he.symm),
      rget_setdefault_ne _ _ _ _ (fun he => h10 he.symm),
      rget_setdefault_ne _ _ _ _ (fun he => h9 he.symm),
      rget_setdefault_ne _ _ _ _ (fun he => h8 he.symm),
      rget_setdefault_ne _ _ _ _ (fun he => h7 he.symm),
      rget_setdefault_ne _ _ _ _ (fun he => h6 he.symm),
      rget_setdefault_ne _ _ _ _ (fun he => h5 he.symm),
      rget_setdefault_ne _ _ _ _ (fun he => h4 he.symm),
      rget_setdefault_ne _ _ _ _ (fun he => h3 he.symm),
      rget_setdefault_ne _ _ _ _ (fun he => h2 he.symm),
      rget_setdefault_ne _ _ _ _ (fun he => h1 he.symm)]

/-- Witness for C4: a one-record collection saved into an existing
`data/` directory and loaded back yields the backfilled record; the
stored `metric_1` value survives the cycle. -/
theorem c4_witness :
    load_cases (some (encodeCases [[("title", JVal.str "T"),
        ("metric_1", JVal.str "95")]]))
      = some ([[("title", JVal.str "T"), ("metric_1", JVal.str "95")]].map
          backfillCase) ∧
    (∃ fs2, save_cases ⟨[[], ["data"]], []⟩
        [[("title", JVal.str "T"), ("metric_1", JVal.str "95")]] = some fs2 ∧
      load_cases (readFile fs2 DATA_FILE)
        = some ([[("title", JVal.str "T"),
            ("metric_1", JVal.str "95")]].map backfillCase)) ∧
    rget (backfillCase [("title", JVal.str "T"), ("metric_1", JVal.str "95")])
      "title" = some (.str "T") := by
  refine ⟨c4_store_round_trip.1 _, ⟨_, rfl, ?_⟩, ?_⟩
  · exact c4_store_round_trip.2.1 ⟨[[], ["data"]], []⟩ _ _ rfl
  · exact c4_store_round_trip.2.2.1 _ "title" (.str "T") rfl

/-! ### C9 -/

/-- C9 (code bug): `save_users` and `save_site_content` create the
parent directory (`mkdir(parents=True, exist_ok=True)`) before
writing, so they succeed on a fresh tree; `save_cases` opens
`data/cases.json` directly with no directory creation and fails
(`FileNotFoundError`, modelled as `none`) when `data/` does not exist,
though it succeeds once the directory is there. -/
theorem c9_save_parent_dirs :
    save_cases ⟨[[]], []⟩ [] = none ∧
    (save_users ⟨[[]], []⟩ []).isSome = true ∧
    (save_site_content ⟨[[]], []⟩
      [("about_me_title", .str "t"), ("about_me_text", .str "x")]).isSome
        = true ∧
    (save_cases ⟨[[], ["data"]], []⟩ []).isSome = true := by
  exact ⟨rfl, rfl, rfl, rfl⟩

/-! ### C8 -/

theorem login_fail_shape (us : List User) (ch : String → String → Bool)
    (e p : String) (hf : (login us ch e p).isFail) :
    login us ch e p = .fail "Неверный email или пароль." := by
  unfold login at hf ⊢
  cases hfind : find_user us (pyNorm e) with
  | none => simp only [hfind]
  | some u =>
    simp only [hfind] at hf ⊢
    by_cases hc : ch u.password_hash p = true
    · rw [if_pos hc] at hf
      exact hf.elim
    · rw [if_neg hc]

/-- C8: when authentication fails, the observable outcome is one fixed
undifferentiated invalid-credentials signal: any two failing runs of
`login` — whatever the stored users, the hash check, or the submitted
credentials, and hence whether the email was unknown or the password
check failed — produce identical results. -/
theorem c8_auth_non_enumeration
    (users1 : List User) (check1 : String → String → Bool) (e1 p1 : String)
    (users2 : List User) (check2 : String → String → Bool) (e2 p2 : String)
    (h1 : (login users1 check1 e1 p1).isFail)
    (h2 : (login users2 check2 e2 p2).isFail) :
    login users1 check1 e1 p1 = login users2 check2 e2 p2 := by
  rw [login_fail_shape users1 check1 e1 p1 h1,
    login_fail_shape users2 check2 e2 p2 h2]

/-- Witness for C8: a run failing because no user has the email and a
run failing because the hash check rejects the password are
indistinguishable. -/
theorem c8_witness :
    login [] (fun _ _ => false) "x@y.com" "pw"
      = login [⟨"x@y.com", "hash", []⟩] (fun _ _ => false) "x@y.com" "pw" :=
  c8_auth_non_enumeration [] (fun _ _ => false) "x@y.com" "pw"
    [⟨"x@y.com", "hash", []⟩] (fun _ _ => false) "x@y.com" "pw"
    trivial trivial

/-! ### C7 -/

/-- C7: `signup` normalizes the email by trimming and lower-casing
(running it on the normalized email gives the same outcome), rejects
an email without `@` (which includes the empty email), rejects a
password shorter than 6 characters, rejects an email whose normalized
form is already registered (so a signup differing only in letter case
is rejected), and otherwise appends exactly one record holding the
normalized email, the derived hash — never the raw password field —
and an empty linked-accounts list, which is then saved. -/
theorem c7_signup_validation (users : List User) (hash : String → String)
    (e p : String) :
    (signup users hash e p = signup users hash (pyNorm e) p) ∧
    ((pyNorm e).data.contains '@' = false →
      signup users hash e p = .invalidEmail) ∧
    ((pyNorm e).data.contains '@' = true → p.length < 6 →
      signup users hash e p = .weakPassword) ∧
    ((pyNorm e).data.contains '@' = true → ¬ p.length < 6 →
      (∃ u ∈ users, u.email = pyNorm e) →
      signup users hash e p = .duplicateEmail) ∧
    ((pyNorm e).data.contains '@' = true → ¬ p.length < 6 →
      (¬ ∃ u ∈ users, u.email = pyNorm e) →
      signup users hash e p
        = .ok (users ++ [⟨pyNorm e, hash p, []⟩]) (pyNorm e)) := by
  have hcne : (pyNorm e).data.contains '@' = true → pyNorm e ≠ "" := by
    intro hc h0
    rw [h0] at hc
    simp [List.contains] at hc
  have hfind : ∀ h : (pyNorm e).data.contains '@' = true,
      ((find_user users (pyNorm e)).isSome = true
        ↔ ∃ u ∈ users, u.email = pyNorm e) := by
    intro _
    unfold find_user
    rw [List.find?_isSome, pyNorm_idem]
    constructor
    · rintro ⟨u, hu, he⟩
      exact ⟨u, hu, beq_iff_eq.mp he⟩
    · rintro ⟨u, hu, he⟩
      exact ⟨u, hu, beq_iff_eq.mpr he⟩
  refine ⟨?_, ?_, ?_, ?_, ?_⟩
  · simp only [signup, pyNorm_idem]
  · intro hc
    have hm : '@' ∉ (pyNorm e).data := by simpa using hc
    simp [signup, hm]
  · intro hc hp
    have hm : '@' ∈ (pyNorm e).data := by simpa using hc
    simp [signup, hm, hcne hc, hp]
  · intro hc hp hdup
    have hm : '@' ∈ (pyNorm e).data := by simpa using hc
    simp [signup, hm, hcne hc, hp, (hfind hc).mpr hdup]
  · intro hc hp hnodup
    have hm : '@' ∈ (pyNorm e).data := by simpa using hc
    have hns : (find_user users (pyNorm e)).isSome = false := by
      rw [Bool.eq_false_iff]
      intro hsome
      exact hnodup ((hfind hc).mp hsome)
    simp [signup, hm, hcne hc, hp, hns]

/-- Witness for C7: the five behaviors at concrete inputs — running on
the normalized email, rejecting `bademail`, rejecting a 5-character
password, rejecting a duplicate in different letter case, and
accepting a fresh well-formed signup. -/
theorem c7_witness :
    (signup [] (fun s => "H" ++ s) " A@B.com " "secret1"
      = signup [] (fun s => "H" ++ s) "a@b.com" "secret1") ∧
    signup [] (fun s => "H" ++ s) "bademail" "secret1" = .invalidEmail ∧
    signup [] (fun s => "H" ++ s) "a@b.com" "12345" = .weakPassword ∧
    signup [⟨"a@b.com", "Hsecret1", []⟩] (fun s => "H" ++ s)
      "A@B.COM" "secret2" = .duplicateEmail ∧
    signup [⟨"a@b.com", "Hsecret1", []⟩] (fun s => "H" ++ s)
      "new@b.com" "secret2"
      = .ok [⟨"a@b.com", "Hsecret1", []⟩,
          ⟨"new@b.com", "Hsecret2", []⟩] "new@b.com" := by
  refine ⟨(c7_signup_validation [] _ " A@B.com " "secret1").1, ?_, ?_, ?_, ?_⟩
  · exact (c7_signup_validation [] _ "bademail" "secret1").2.1 (by decide)
  · exact (c7_signup_validation [] _ "a@b.com" "12345").2.2.1 (by decide)
      (by decide)
  · exact (c7_signup_validation [⟨"a@b.com", "Hsecret1", []⟩] _
      "A@B.COM" "secret2").2.2.2.1 (by decide) (by decide)
      ⟨⟨"a@b.com", "Hsecret1", []⟩, by decide, by decide⟩
  · exact (c7_signup_validation [⟨"a@b.com", "Hsecret1", []⟩] _
      "new@b.com" "secret2").2.2.2.2 (by decide) (by decide)
      (by rintro ⟨u, hu, he⟩; simp at hu; rw [hu] at he; revert he; decide)

/-! ### C6 -/

/-- C6: the verifier response handling checks, in order: an HTTP
status ≥ 400 yields the failure message `HTTP <status>: <body[:200]>`
(the excerpt never exceeding 200 characters); otherwise a body with an
`error` envelope yields the envelope's detail (`error_detail`, falling
back to `error_string`, falling back to the fixed unknown-API-error
string when neither is a non-empty value); otherwise an empty
`Customers` result set yields the no-matching-account failure;
otherwise the call succeeds with the first customer's `Name`, falling
back to the customer's `Login` — the requested login itself whenever
the API returns the account that was asked for. -/
theorem c6_verifier_taxonomy (resp : ApiResponse) :
    (resp.status ≥ 400 →
      validate_direct_connection resp
        = some (false, .str ("HTTP " ++ toString resp.status ++ ": "
            ++ pyTake resp.text 200)) ∧
      (pyTake resp.text 200).length ≤ 200) ∧
    (resp.status < 400 → ∀ efs,
      rget resp.body "error" = some (.obj efs) →
      validate_direct_connection resp
        = some (false, pyOr (dgetD efs "error_detail" .null)
            (pyOr (dgetD efs "error_string" .null)
              (.str "Неизвестная ошибка API"))) ∧
      (pyTruthy (dgetD efs "error_detail" .null) = false →
        pyTruthy (dgetD efs "error_string" .null) = false →
        validate_direct_connection resp
          = some (false, .str "Неизвестная ошибка API"))) ∧
    (resp.status < 400 → rget resp.body "error" = none → ∀ rfs,
      dgetD resp.body "result" (.obj []) = .obj rfs →
      (dgetD rfs "Customers" (.arr []) = .arr [] →
        validate_direct_connection resp
          = some (false,
              .str "API не вернуло клиентов по указанному логину.")) ∧
      (∀ cfs rest,
        dgetD rfs "Customers" (.arr []) = .arr (.obj cfs :: rest) →
        validate_direct_connection resp
          = some (true, pyOr (dgetD cfs "Name" .null)
              (dgetD cfs "Login" .null)) ∧
        (∀ lg, pyTruthy (dgetD cfs "Name" .null) = false →
          dgetD cfs "Login" .null = .str lg →
          validate_direct_connection resp = some (true, .str lg)))) := by
  refine ⟨?_, ?_, ?_⟩
  · intro h
    constructor
    · unfold validate_direct_connection
      rw [if_pos h]
    · have := List.length_take 200 resp.text.data
      have h2 : (pyTake resp.text 200).length = (resp.text.data.take 200).length
        := rfl
      omega
  · intro hst efs herr
    have hst2 : ¬ resp.status ≥ 400 := by omega
    have hbase : validate_direct_connection resp
        = some (false, pyOr (dgetD efs "error_detail" .null)
            (pyOr (dgetD efs "error_string" .null)
              (.str "Неизвестная ошибка API"))) := by
      unfold validate_direct_connection
      rw [if_neg hst2]
      simp only [herr]
    refine ⟨hbase, ?_⟩
    intro hd1 hd2
    rw [hbase]
    simp [pyOr, hd1, hd2]
  · intro hst herr rfs hres
    have hst2 : ¬ resp.status ≥ 400 := by omega
    constructor
    · intro hcust
      unfold validate_direct_connection
      rw [if_neg hst2]
      simp only [herr, hres, hcust]
      rfl
    · intro cfs rest hcust
      have hbase : validate_direct_connection resp
          = some (true, pyOr (dgetD cfs "Name" .null)
              (dgetD cfs "Login" .null)) := by
        unfold validate_direct_connection
        rw [if_neg hst2]
        simp only [herr, hres, hcust]
        rfl
      refine ⟨hbase, ?_⟩
      intro lg hname hlogin
      rw [hbase]
      simp [pyOr, hname, hlogin]

/-- Witness for C6: an HTTP 403 yields the HTTP failure with the
excerpt; a 200 response with an empty `Customers` list yields the
no-matching-account failure; a 200 response with one customer that has
only a `Login` field succeeds with that login. -/
theorem c6_witness :
    validate_direct_connection ⟨403, "Forbidden", []⟩
      = some (false, .str "HTTP 403: Forbidden") ∧
    validate_direct_connection ⟨200, "",
        [("result", .obj [("Customers", .arr [])])]⟩
      = some (false, .str "API не вернуло клиентов по указанному логину.") ∧
    validate_direct_connection ⟨200, "",
        [("result", .obj [("Customers",
            .arr [.obj [("Login", .str "client1")]])])]⟩
      = some (true, .str "client1") := by
  refine ⟨?_, ?_, ?_⟩
  · exact ((c6_verifier_taxonomy ⟨403, "Forbidden", []⟩).1 (by decide)).1
  · exact ((c6_verifier_taxonomy ⟨200, "",
      [("result", .obj [("Customers", .arr [])])]⟩).2.2 (by decide) rfl
      [("Customers", .arr [])] rfl).1 rfl
  · exact (((c6_verifier_taxonomy ⟨200, "",
      [("result", .obj [("Customers",
        .arr [.obj [("Login", .str "client1")]])])]⟩).2.2 (by decide) rfl
      [("Customers", .arr [.obj [("Login", .str "client1")]])] rfl).2
      [("Login", .str "client1")] [] rfl).2 "client1" rfl rfl

/-! ### C5 -/

theorem findIdx?_set_congr (p : α → Bool) :
    ∀ (l : List α) (i : Nat) (a : α) (s : Nat),
      (∀ b, l[i]? = some b → p a = p b) →
      (l.set i a).findIdx? p s = l.findIdx? p s := by
  intro l
  induction l with
  | nil => intro i a s _; rfl
  | cons x xs ih =>
    intro i a s h
    cases i with
    | zero =>
      have hpx : p a = p x := h x (by simp)
      rw [List.set_cons_zero, List.findIdx?_cons, List.findIdx?_cons, hpx]
    | succ j =>
      rw [List.set_cons_succ, List.findIdx?_cons, List.findIdx?_cons]
      by_cases hx : p x = true
      · simp [hx]
      · simp only [hx, Bool.false_eq_true, if_false]
        exact ih j a (s + 1) (fun b hb => h b (by simpa using hb))

/-- C5: linking an external account is atomic.  With the duplicate
check before any verifier call: an existing linked account with the
same login fails with the duplicate outcome, leaves the stored users
unchanged, and does not depend on the verifier's behavior (it is not
consulted); a transport error or a verification failure carries the
verifier's message and leaves the users unchanged; on success exactly
one `LinkedAccount` with the verifier-returned display name and the
supplied token is appended to the user's `direct_accounts` and saved;
and linking the same login twice leaves exactly one linked account,
the second attempt failing as a duplicate. -/
theorem c5_link_atomicity (users : List User) (se tok lg : String)
    (i : Nat) (u : User)
    (hfind : users.findIdx? (fun w => w.email == se) = some i)
    (hu : users[i]? = some u)
    (htok : pyStripS tok ≠ "") (hlg : pyStripS lg ≠ "") :
    ((∃ acc ∈ u.direct_accounts, acc.direct_login = pyStripS lg) →
      ∀ v, connect_direct users se tok lg v = (.duplicate, users)) ∧
    ((¬ ∃ acc ∈ u.direct_accounts, acc.direct_login = pyStripS lg) →
      (∀ m, connect_direct users se tok lg (.exn m)
          = (.transportError m, users)) ∧
      (∀ m, connect_direct users se tok lg (.ret false m)
          = (.verifyFailed m, users)) ∧
      (∀ name, connect_direct users se tok lg (.ret true name)
          = (.ok, users.set i ⟨u.email, u.password_hash,
              u.direct_accounts ++ [⟨pyStripS lg, name, pyStripS tok⟩]⟩)) ∧
      (∀ name v2,
        countLinked users i (pyStripS lg) = 0 →
        countLinked (connect_direct users se tok lg (.ret true name)).2 i
            (pyStripS lg) = 1 ∧
        connect_direct (connect_direct users se tok lg (.ret true name)).2
            se tok lg v2
          = (.duplicate,
              (connect_direct users se tok lg (.ret true name)).2))) := by
  have hcond : ¬ (pyStripS tok = "" ∨ pyStripS lg = "") := by
    rintro (h | h)
    · exact htok h
    · exact hlg h
  have hdups : ∀ l : List DirectAccount,
      (∃ acc ∈ l, acc.direct_login = pyStripS lg) ↔
      ((l.find?
        (fun acc => acc.direct_login == pyStripS lg)).isSome = true) := by
    intro l
    rw [List.find?_isSome]
    constructor
    · rintro ⟨a, ha, he⟩
      exact ⟨a, ha, beq_iff_eq.mpr he⟩
    · rintro ⟨a, ha, he⟩
      exact ⟨a, ha, beq_iff_eq.mp he⟩
  constructor
  · intro hdup v
    unfold connect_direct
    rw [if_neg (by simpa using hcond)]
    simp only [hfind, hu]
    rw [if_pos ((hdups u.direct_accounts).mp hdup)]
  · intro hnodup
    have hnof : ((u.direct_accounts.find?
        (fun acc => acc.direct_login == pyStripS lg)).isSome = true) → False :=
      fun h => hnodup ((hdups u.direct_accounts).mpr h)
    have hred : ∀ v, connect_direct users se tok lg v
        = match v with
          | .exn m => (.transportError m, users)
          | .ret false m => (.verifyFailed m, users)
          | .ret true name =>
            (.ok, users.set i ⟨u.email, u.password_hash,
              u.direct_accounts ++ [⟨pyStripS lg, name, pyStripS tok⟩]⟩) := by
      intro v
      unfold connect_direct
      rw [if_neg (by simpa using hcond)]
      simp only [hfind, hu]
      rw [if_neg hnof]
    refine ⟨fun m => hred (.exn m), fun m => hred (.ret false m),
      fun name => hred (.ret true name), ?_⟩
    intro name v2 hcount
    have hu2 : (connect_direct users se tok lg (.ret true name)).2[i]?
        = some ⟨u.email, u.password_hash,
            u.direct_accounts ++ [⟨pyStripS lg, name, pyStripS tok⟩]⟩ := by
      rw [hred (.ret true name)]
      exact List.getElem?_set_self ((List.getElem?_eq_some.mp hu).1)
    have hcnt0 : (u.direct_accounts.filter
        (fun a => a.direct_login == pyStripS lg)).length = 0 := by
      unfold countLinked at hcount
      rw [hu] at hcount
      exact hcount
    constructor
    · simp only [countLinked, hu2]
      rw [List.filter_append, List.length_append, hcnt0]
      simp
    · have hdup2 : ∃ acc ∈ (u.direct_accounts
          ++ [(⟨pyStripS lg, name, pyStripS tok⟩ : DirectAccount)]),
          acc.direct_login = pyStripS lg :=
        ⟨⟨pyStripS lg, name, pyStripS tok⟩,
          List.mem_append_right _ (List.mem_singleton.mpr rfl), rfl⟩
      have hfind2 : (connect_direct users se tok lg (.ret true name)).2.findIdx?
          (fun w => w.email == se) = some i := by
        rw [hred (.ret true name)]
        rw [findIdx?_set_congr (fun w => w.email == se) users i _ 0
          (fun b hb => by rw [hu] at hb; cases hb; rfl)]
        exact hfind
      set us2 := (connect_direct users se tok lg (.ret true name)).2 with hus2
      unfold connect_direct
      rw [if_neg (by simpa using hcond)]
      simp only [hfind2, hu2]
      have hcondif : (List.find? (fun acc => acc.direct_login == pyStripS lg)
          (u.direct_accounts
            ++ [(⟨pyStripS lg, name, pyStripS tok⟩ : DirectAccount)])).isSome
          = true :=
        (hdups _).mp hdup2
      rw [if_pos hcondif]

/-- Witness for C5: on a one-user store, a successful link appends the
single verified account (`display_name` from the verifier, token and
login stripped); repeating the link of the same login is rejected as a
duplicate, leaving exactly one linked account. -/
theorem c5_witness :
    connect_direct [⟨"a@b.com", "h", []⟩] "a@b.com" " tok1 " " login1 "
        (.ret true "Client One")
      = (.ok, [⟨"a@b.com", "h", [⟨"login1", "Client One", "tok1"⟩]⟩]) ∧
    countLinked [⟨"a@b.com", "h", [⟨"login1", "Client One", "tok1"⟩]⟩]
      0 "login1" = 1 ∧
    connect_direct [⟨"a@b.com", "h", [⟨"login1", "Client One", "tok1"⟩]⟩]
        "a@b.com" " tok1 " " login1 " (.ret true "Client One")
      = (.duplicate,
          [⟨"a@b.com", "h", [⟨"login1", "Client One", "tok1"⟩]⟩]) := by
  have base := c5_link_atomicity [⟨"a@b.com", "h", []⟩] "a@b.com"
    " tok1 " " login1 " 0 ⟨"a@b.com", "h", []⟩ (by decide) (by decide)
    (by decide) (by decide)
  have h2 := (base.2 (by simp)).2.2.2 "Client One" (.ret true "Client One")
    (by decide)
  exact ⟨(base.2 (by simp)).2.2.1 "Client One", h2.1, h2.2⟩

end ContextLanding
